import Mathlib

/-!
Shallow embedding of the geotiff crate (src/lowlevel.rs, src/tiff.rs,
src/reader.rs, src/lib.rs) for checking its specification.

Conventions of the embedding:
* a byte file is a `List Nat` of byte values; reads are by absolute
  position, matching the absolute seeks of the source;
* Rust `Result<_, io::Error>` is `Except String _`;
* a Rust panic (explicit `panic!` macro, a failed `assert`, an `expect`
  on `None`, an out-of-range index, a division by zero, or an
  underflowing usize subtraction) is modelled as `Option.none` at the
  outermost level: `Option (Except String A)` distinguishes
  "panicked" (`none`) / `some (.error _)` / `some (.ok _)`;
* machine integers are `Nat` (or `Int` for the signed decoders), with
  an explicit `% 2 ^ 32` where a u32 multiplication may wrap;
* `f32`/`f64` tagged values carry their raw bit patterns as `Nat`
  (the source only copies them around; no float arithmetic occurs).
-/

namespace Geotiff

/-- Byte-order strategies, from `TIFFByteOrder` in src/lowlevel.rs. -/
inductive TIFFByteOrder where
  | LittleEndian
  | BigEndian
  deriving DecidableEq, Repr

/-- Decoding of the 2-byte order marker, from `TIFFByteOrder::from_u16`
(values 0x4949 and 0x4d4d in src/lowlevel.rs). -/
def byteOrderFromU16 (v : Nat) : Option TIFFByteOrder :=
  if v = 0x4949 then some .LittleEndian
  else if v = 0x4d4d then some .BigEndian
  else none

/-- Assembling a 16-bit value from two bytes in a given byte order,
as `byteorder`'s `read_u16` does. -/
def readU16 (e : TIFFByteOrder) (b0 b1 : Nat) : Nat :=
  match e with
  | .LittleEndian => b0 + 256 * b1
  | .BigEndian => b1 + 256 * b0

/-- Assembling a 32-bit value from four bytes in a given byte order,
as `byteorder`'s `read_u32` does. -/
def readU32 (e : TIFFByteOrder) (b0 b1 b2 b3 : Nat) : Nat :=
  match e with
  | .LittleEndian => b0 + 256 * b1 + 65536 * b2 + 16777216 * b3
  | .BigEndian => b3 + 256 * b2 + 65536 * b1 + 16777216 * b0

/-- Assembling a 64-bit value from eight bytes in a given byte order,
as `byteorder`'s `read_u64` does. -/
def readU64 (e : TIFFByteOrder) (bs : List Nat) : Nat :=
  match e with
  | .LittleEndian => (bs.enum.map (fun p => p.2 * 256 ^ p.1)).sum
  | .BigEndian => (bs.reverse.enum.map (fun p => p.2 * 256 ^ p.1)).sum

/-- Reading a 16-bit integer at an absolute position of the file;
`reader.read_u16::<T>()` after a seek. An end-of-file is an io error
(`Except.error`), which the source propagates with `?`. -/
def readU16At (e : TIFFByteOrder) (file : List Nat) (pos : Nat) : Except String Nat :=
  match file.drop pos with
  | b0 :: b1 :: _ => .ok (readU16 e b0 b1)
  | _ => .error "failed to fill whole buffer"

/-- Reading a 32-bit integer at an absolute position of the file;
`reader.read_u32::<T>()` after a seek. -/
def readU32At (e : TIFFByteOrder) (file : List Nat) (pos : Nat) : Except String Nat :=
  match file.drop pos with
  | b0 :: b1 :: b2 :: b3 :: _ => .ok (readU32 e b0 b1 b2 b3)
  | _ => .error "failed to fill whole buffer"

/-- Embedding of `TIFFReader::read_n` (src/reader.rs): read exactly `n`
bytes starting at `pos`; the source asserts that exactly `n` bytes were
obtained and panics otherwise, so a short read is `none`. -/
def read_n (file : List Nat) (pos n : Nat) : Option (List Nat) :=
  if pos + n ≤ file.length then some ((file.drop pos).take n) else none

/-- Fuel-driven worker for `chunksExact`; one unit of fuel per produced
chunk suffices since every chunk consumes at least one element. -/
def chunksExactAux (n : Nat) : Nat → List Nat → List (List Nat)
  | 0, _ => []
  | fuel + 1, l =>
    if 0 < n ∧ n ≤ l.length then
      l.take n :: chunksExactAux n fuel (l.drop n)
    else []

/-- Embedding of Rust's `chunks_exact(n)` on a byte vector: the exact
`n`-sized chunks in order, any remainder dropped. -/
def chunksExact (n : Nat) (l : List Nat) : List (List Nat) :=
  chunksExactAux n l.length l

/-- Embedding of `array_chunks::<2>` over a chunk iterator: adjacent
pairs, any unpaired remainder dropped. -/
def pairUp {α : Type} : List α → List (α × α)
  | a :: b :: t => (a, b) :: pairUp t
  | _ => []

/-- Tag value types, from `TagType` in src/lowlevel.rs. -/
inductive TagType where
  | Byte
  | ASCII
  | Short
  | Long
  | Rational
  | SignedByte
  | Undefined
  | SignedShort
  | SignedLong
  | SignedRational
  | Float
  | Double
  deriving DecidableEq, Repr

/-- Embedding of `decode_tag_type` / `TagType::from_u16`
(discriminants 1..12 from src/lowlevel.rs). -/
def decode_tag_type (v : Nat) : Option TagType :=
  match v with
  | 1 => some .Byte
  | 2 => some .ASCII
  | 3 => some .Short
  | 4 => some .Long
  | 5 => some .Rational
  | 6 => some .SignedByte
  | 7 => some .Undefined
  | 8 => some .SignedShort
  | 9 => some .SignedLong
  | 10 => some .SignedRational
  | 11 => some .Float
  | 12 => some .Double
  | _ => none

/-- Embedding of `tag_size` from src/lowlevel.rs, byte for byte the same
match (note the source maps `SignedLong` to 2). -/
def tag_size (t : TagType) : Nat :=
  match t with
  | .Byte => 1
  | .ASCII => 1
  | .Short => 2
  | .Long => 4
  | .Rational => 8
  | .SignedByte => 1
  | .Undefined => 1
  | .SignedShort => 2
  | .SignedLong => 2
  | .SignedRational => 8
  | .Float => 4
  | .Double => 8

/-- Tag identifiers, from the `TIFFTag` enumeration in src/lowlevel.rs. -/
inductive TIFFTag where
  | ArtistTag
  | BitsPerSampleTag
  | CellLengthTag
  | CellWidthTag
  | ColorMapTag
  | CompressionTag
  | CopyrightTag
  | DateTimeTag
  | ExtraSamplesTag
  | FillOrderTag
  | FreeByteCountsTag
  | FreeOffsetsTag
  | GrayResponseCurveTag
  | GrayResponseUnitTag
  | HostComputerTag
  | ImageDescriptionTag
  | ImageLengthTag
  | ImageWidthTag
  | MakeTag
  | MaxSampleValueTag
  | MinSampleValueTag
  | ModelTag
  | NewSubfileTypeTag
  | OrientationTag
  | PhotometricInterpretationTag
  | PlanarConfigurationTag
  | PredictorTag
  | ResolutionUnitTag
  | RowsPerStripTag
  | SampleFormatTag
  | SamplesPerPixelTag
  | SoftwareTag
  | StripByteCountsTag
  | StripOffsetsTag
  | SubfileTypeTag
  | ThresholdingTag
  | XResolutionTag
  | YResolutionTag
  | WhitePointTag
  | PrimaryChromaticities
  | TransferFunction
  | TransferRange
  | ReferenceBlackWhite
  | YCbCrCoefficients
  | YCbCrSubsampling
  | YCbCrPositioning
  | SubIFDsTag
  | JPEGTablesTag
  | CFARepeatPatternDimTag
  | BatteryLevelTag
  | ModelPixelScaleTag
  | IPTCTag
  | ModelTiepointTag
  | ModelTransformationTag
  | InterColorProfileTag
  | GeoKeyDirectoryTag
  | GeoDoubleParamsTag
  | GeoAsciiParamsTag
  | InterlaceTag
  | TimeZoneOffsetTag
  | SelfTimerModeTag
  | NoiseTag
  | ImageNumberTag
  | SecurityClassificationTag
  | ImageHistoryTag
  | EPStandardIdTag
  | XMPTag
  | PhotoshopTag
  | EXIFTag
  | GDALMETADATA
  | GDALNODATA
  deriving DecidableEq, Repr

/-- Embedding of `decode_tag` / `TIFFTag::from_u16`, with the numeric
codes of the `TIFFTag` enumeration in src/lowlevel.rs. -/
def decode_tag (v : Nat) : Option TIFFTag :=
  match v with
  | 0x013b => some .ArtistTag
  | 0x0102 => some .BitsPerSampleTag
  | 0x0109 => some .CellLengthTag
  | 0x0108 => some .CellWidthTag
  | 0x0140 => some .ColorMapTag
  | 0x0103 => some .CompressionTag
  | 0x8298 => some .CopyrightTag
  | 0x0132 => some .DateTimeTag
  | 0x0152 => some .ExtraSamplesTag
  | 0x010a => some .FillOrderTag
  | 0x0121 => some .FreeByteCountsTag
  | 0x0120 => some .FreeOffsetsTag
  | 0x0123 => some .GrayResponseCurveTag
  | 0x0122 => some .GrayResponseUnitTag
  | 0x013c => some .HostComputerTag
  | 0x010e => some .ImageDescriptionTag
  | 0x0101 => some .ImageLengthTag
  | 0x0100 => some .ImageWidthTag
  | 0x010f => some .MakeTag
  | 0x0119 => some .MaxSampleValueTag
  | 0x0118 => some .MinSampleValueTag
  | 0x0110 => some .ModelTag
  | 0x00fe => some .NewSubfileTypeTag
  | 0x0112 => some .OrientationTag
  | 0x0106 => some .PhotometricInterpretationTag
  | 0x011c => some .PlanarConfigurationTag
  | 0x013d => some .PredictorTag
  | 0x0128 => some .ResolutionUnitTag
  | 0x0116 => some .RowsPerStripTag
  | 0x0153 => some .SampleFormatTag
  | 0x0115 => some .SamplesPerPixelTag
  | 0x0131 => some .SoftwareTag
  | 0x0117 => some .StripByteCountsTag
  | 0x0111 => some .StripOffsetsTag
  | 0x00ff => some .SubfileTypeTag
  | 0x0107 => some .ThresholdingTag
  | 0x011a => some .XResolutionTag
  | 0x011b => some .YResolutionTag
  | 0x013e => some .WhitePointTag
  | 0x013f => some .PrimaryChromaticities
  | 0x012d => some .TransferFunction
  | 0x0156 => some .TransferRange
  | 0x0214 => some .ReferenceBlackWhite
  | 0x0211 => some .YCbCrCoefficients
  | 0x0212 => some .YCbCrSubsampling
  | 0x0213 => some .YCbCrPositioning
  | 0x014a => some .SubIFDsTag
  | 0x015b => some .JPEGTablesTag
  | 0x828d => some .CFARepeatPatternDimTag
  | 0x828f => some .BatteryLevelTag
  | 0x830e => some .ModelPixelScaleTag
  | 0x83BB => some .IPTCTag
  | 0x8482 => some .ModelTiepointTag
  | 0x85D8 => some .ModelTransformationTag
  | 0x8773 => some .InterColorProfileTag
  | 0x87AF => some .GeoKeyDirectoryTag
  | 0x87B0 => some .GeoDoubleParamsTag
  | 0x87B1 => some .GeoAsciiParamsTag
  | 0x8829 => some .InterlaceTag
  | 0x882a => some .TimeZoneOffsetTag
  | 0x882b => some .SelfTimerModeTag
  | 0x920d => some .NoiseTag
  | 0x9211 => some .ImageNumberTag
  | 0x9212 => some .SecurityClassificationTag
  | 0x9213 => some .ImageHistoryTag
  | 0x9216 => some .EPStandardIdTag
  | 0x02bc => some .XMPTag
  | 0x8649 => some .PhotoshopTag
  | 0x8769 => some .EXIFTag
  | 0xA480 => some .GDALMETADATA
  | 0xA481 => some .GDALNODATA
  | _ => none

/-- Single tag values, from `TagValue` in src/lowlevel.rs. The `Ascii`
payload carries the raw bytes of the string. Unsigned payloads are
`Nat`, signed payloads `Int`; `FloatV`/`DoubleV` carry the raw 32- and
64-bit patterns. -/
inductive TagValue where
  | ByteV (v : Nat)
  | AsciiV (v : List Nat)
  | ShortV (v : Nat)
  | LongV (v : Nat)
  | RationalV (num den : Nat)
  | SignedByteV (v : Int)
  | SignedShortV (v : Int)
  | SignedLongV (v : Int)
  | SignedRationalV (num den : Int)
  | FloatV (bits : Nat)
  | DoubleV (bits : Nat)
  deriving DecidableEq, Repr

/-- Embedding of `TagValue::as_short` from src/lowlevel.rs: the value if
the variant is `Short`, otherwise `None`. -/
def TagValue.as_short : TagValue → Option Nat
  | .ShortV v => some v
  | _ => none

/-- Modelled from the spec: `TagValue::as_unsigned_int` is called in
src/tiff.rs `get_geo_keys` but its definition is not under src/. The
spec describes typed accessors "as unsigned integers" that "succeed only
when the concrete variant is convertible": the unsigned variants
byte/short/long convert, everything else fails. -/
def TagValue.as_unsigned_int : TagValue → Option Nat
  | .ByteV v => some v
  | .ShortV v => some v
  | .LongV v => some v
  | _ => none

/-- Type-tagged value arrays, one sequence per variant. The type
`TaggedData` is constructed by `bytes_to_tag_value` in src/reader.rs with
exactly these constructors, but its declaration is not under src/;
payload conventions are as for `TagValue`. -/
inductive TaggedData where
  | byte (v : List Nat)
  | ascii (v : List Nat)
  | short (v : List Nat)
  | long (v : List Nat)
  | rational (v : List (Nat × Nat))
  | signedByte (v : List Int)
  | signedShort (v : List Int)
  | signedLong (v : List Int)
  | signedRational (v : List (Int × Int))
  | float (v : List Nat)
  | double (v : List Nat)
  deriving DecidableEq, Repr

/-- Modelled from the spec: the element view of a `TaggedData` array used
by `get_geo_keys` in src/tiff.rs (`x.value[i]`, `x.value.iter()`), whose
supporting code is not under src/. Each variant is the sequence of its
elements as single `TagValue`s. -/
def TaggedData.asList : TaggedData → List TagValue
  | .byte v => v.map .ByteV
  | .ascii v => [.AsciiV v]
  | .short v => v.map .ShortV
  | .long v => v.map .LongV
  | .rational v => v.map (fun p => .RationalV p.1 p.2)
  | .signedByte v => v.map .SignedByteV
  | .signedShort v => v.map .SignedShortV
  | .signedLong v => v.map .SignedLongV
  | .signedRational v => v.map (fun p => .SignedRationalV p.1 p.2)
  | .float v => v.map .FloatV
  | .double v => v.map .DoubleV

/-- Modelled from the spec: `as_unsigned_ints`, called on tag values in
src/reader.rs (strip/tile offsets and byte counts) but not defined under
src/. Per the spec's accessor contract it succeeds exactly on the
unsigned integer variants, yielding the whole sequence. -/
def TaggedData.as_unsigned_ints : TaggedData → Option (List Nat)
  | .byte v => some v
  | .short v => some v
  | .long v => some v
  | _ => none

/-- Geo keys, from the `GeoKey` enumeration in src/tiff.rs. -/
inductive GeoKey where
  | GTModelTypeGeoKey (v : Nat)
  | GTRasterTypeGeoKey (v : Nat)
  | GeographicTypeGeoKey (v : Nat)
  | GeogLinearUnitsGeoKey (v : Nat)
  | GeogAngularUnitsGeoKey (v : Nat)
  | GeogGeodeticDatumGeoKey (v : Nat)
  | GeogPrimeMeridianGeoKey (v : Nat)
  | GeogLinearUnitSizeGeoKey (v : Nat)
  | Unknown (id v : Nat)
  deriving DecidableEq, Repr

/-- Image file directory entries, from `IFDEntry` in src/tiff.rs, with
the `value` field carrying the `TaggedData` array that
`TIFFReader::read_tag` actually stores there. -/
structure IFDEntry where
  tag : TIFFTag
  tpe : TagType
  count : Nat
  value_offset : Nat
  value : TaggedData
  deriving DecidableEq, Repr

/-- Image file directories, from `IFD` in src/tiff.rs. -/
structure IFD where
  count : Nat
  entries : List IFDEntry
  deriving DecidableEq, Repr

/-- Embedding of `IFD::get` from src/tiff.rs: first entry with the tag. -/
def IFD.get (ifd : IFD) (tag : TIFFTag) : Option IFDEntry :=
  ifd.entries.find? (fun e => e.tag == tag)

/-- Embedding of `extract_value_or_0` from src/tiff.rs: the first element
of the entry's value array as a `usize` when it is a `Short` or `Long`,
`0` for any other variant; indexing an empty value array panics
(`none`). -/
def extract_value_or_0 (e : IFDEntry) : Option Nat :=
  match e.value.asList.get? 0 with
  | none => none
  | some (.ShortV v) => some v
  | some (.LongV v) => some v
  | some _ => some 0

/-- Embedding of `IFD::get_image_length` from src/tiff.rs. -/
def IFD.get_image_length (ifd : IFD) : Option (Except String Nat) :=
  match ifd.entries.find? (fun e => e.tag == TIFFTag.ImageLengthTag) with
  | none => some (.error "Image length not found.")
  | some e => (extract_value_or_0 e).map .ok

/-- Embedding of `IFD::get_image_width` from src/tiff.rs. -/
def IFD.get_image_width (ifd : IFD) : Option (Except String Nat) :=
  match ifd.entries.find? (fun e => e.tag == TIFFTag.ImageWidthTag) with
  | none => some (.error "Image width not found.")
  | some e => (extract_value_or_0 e).map .ok

/-- Embedding of `IFD::get_bytes_per_sample` from src/tiff.rs: the first
value of the bits-per-sample entry divided by 8. -/
def IFD.get_bytes_per_sample (ifd : IFD) : Option (Except String Nat) :=
  match ifd.entries.find? (fun e => e.tag == TIFFTag.BitsPerSampleTag) with
  | none => some (.error "Image depth not found.")
  | some e => (extract_value_or_0 e).map (fun x => .ok (x / 8))

/-- Embedding of `array_chunks::<4>` over the GeoKey record region:
4-element records in order, any remainder dropped. -/
def chunk4 {α : Type} : List α → List (α × α × α × α)
  | a :: b :: c :: d :: t => (a, b, c, d) :: chunk4 t
  | _ => []

/-- Embedding of the key-id match inside `IFD::get_geo_keys`
(src/tiff.rs): numeric key id to `GeoKey` variant, defaulting to
`Unknown`. -/
def geoKeyOf (id v : Nat) : GeoKey :=
  match id with
  | 1024 => .GTModelTypeGeoKey v
  | 1025 => .GTRasterTypeGeoKey v
  | 2048 => .GeographicTypeGeoKey v
  | 2050 => .GeogGeodeticDatumGeoKey v
  | 2051 => .GeogPrimeMeridianGeoKey v
  | 2052 => .GeogLinearUnitsGeoKey v
  | 2053 => .GeogLinearUnitSizeGeoKey v
  | 2054 => .GeogAngularUnitsGeoKey v
  | x => .Unknown x v

/-- Embedding of the per-record closure inside `IFD::get_geo_keys`
(src/tiff.rs). The guard is
`location.as_unsigned_int()? != 0 && count.as_unsigned_int()? != 1`
with Rust's short-circuit `&&`; when it holds the closure executes
`panic!` (outer `none` here). A failed `?` yields `None` from the
closure (`some none` here); otherwise the record's id and fourth field
are read with `as_short()?` and mapped to a `GeoKey`. -/
def parseGeoRecord (r : TagValue × TagValue × TagValue × TagValue) :
    Option (Option GeoKey) :=
  let (id, location, count, vo) := r
  let keep : Option (Option GeoKey) :=
    match id.as_short with
    | none => some none
    | some i =>
      match vo.as_short with
      | none => some none
      | some v => some (some (geoKeyOf i v))
  match location.as_unsigned_int with
  | none => some none
  | some loc =>
    if loc ≠ 0 then
      match count.as_unsigned_int with
      | none => some none
      | some cnt => if cnt ≠ 1 then none else keep
    else keep

/-- Embedding of `collect::<Option<Vec<_>>>` over the lazily mapped
record iterator in `IFD::get_geo_keys`: records are evaluated in order;
a record panic (`none`) aborts everything, a record failure
(`some none`) stops collection with `None`, otherwise all keys are
collected. -/
def geoCollect : List (TagValue × TagValue × TagValue × TagValue) →
    Option (Option (List GeoKey))
  | [] => some (some [])
  | r :: rs =>
    match parseGeoRecord r with
    | none => none
    | some none => some none
    | some (some k) =>
      match geoCollect rs with
      | none => none
      | some none => some none
      | some (some ks) => some (some (k :: ks))

/-- Embedding of `IFD::get_geo_keys` from src/tiff.rs: find the GeoKey
directory entry (error if absent), read the 4 header values with
indexing (panic when out of range) and `as_short` (error when not a
short), then decode `number_of_keys` 4-element records. -/
def IFD.get_geo_keys (ifd : IFD) : Option (Except String (List GeoKey)) :=
  match ifd.entries.find? (fun e => e.tag == TIFFTag.GeoKeyDirectoryTag) with
  | none => some (.error "Image depth not found.")
  | some x =>
    let l := x.value.asList
    match l.get? 0 with
    | none => none
    | some h0 =>
      match h0.as_short with
      | none => some (.error "key_directory_version not a short")
      | some _ =>
        match l.get? 1 with
        | none => none
        | some h1 =>
          match h1.as_short with
          | none => some (.error "key_revision not a short")
          | some _ =>
            match l.get? 2 with
            | none => none
            | some h2 =>
              match h2.as_short with
              | none => some (.error "minor_revision not a short")
              | some _ =>
                match l.get? 3 with
                | none => none
                | some h3 =>
                  match h3.as_short with
                  | none => some (.error "number_of_keys not a short")
                  | some nk =>
                    match geoCollect (chunk4 ((l.drop 4).take (nk * 4))) with
                    | none => none
                    | some none =>
                      some (.error "Could not parse geo keys properly")
                    | some (some ks) => some (.ok ks)

/-- Embedding of `TIFFReader::read_byte_order` (src/reader.rs): the
first two bytes are read as a little-endian u16 and matched against the
`TIFFByteOrder` discriminants; anything else is the invalid-header
error. -/
def read_byte_order (file : List Nat) : Except String TIFFByteOrder :=
  match readU16At .LittleEndian file 0 with
  | .error msg => .error msg
  | .ok v =>
    match byteOrderFromU16 v with
    | some bo => .ok bo
    | none => .error "Invalid byte order in header."

/-- Embedding of `TIFFReader::read_magic` (src/reader.rs): bytes 2..3 as
a u16 in the selected byte order must equal 42. -/
def read_magic (e : TIFFByteOrder) (file : List Nat) : Except String Unit :=
  match readU16At e file 2 with
  | .error msg => .error msg
  | .ok v =>
    if v = 42 then .ok () else .error "Invalid magic number in header"

/-- Embedding of `TIFFReader::read_ifd_offset` (src/reader.rs): bytes
4..7 as a u32 in the selected byte order. -/
def read_ifd_offset (e : TIFFByteOrder) (file : List Nat) : Except String Nat :=
  readU32At e file 4

/-- Reading a 16-bit value out of one exact chunk produced by
`chunks_exact(2)`; the default is never reached on exact chunks. -/
def readU16Chunk (e : TIFFByteOrder) (c : List Nat) : Nat :=
  readU16 e (c.getD 0 0) (c.getD 1 0)

/-- Reading a 32-bit value out of one exact chunk produced by
`chunks_exact(4)`. -/
def readU32Chunk (e : TIFFByteOrder) (c : List Nat) : Nat :=
  readU32 e (c.getD 0 0) (c.getD 1 0) (c.getD 2 0) (c.getD 3 0)

/-- Two's-complement reinterpretation of a 16-bit value, as
`byteorder`'s `read_i16`. -/
def toI16 (u : Nat) : Int :=
  if u < 2 ^ 15 then (u : Int) else (u : Int) - 2 ^ 16

/-- Two's-complement reinterpretation of a 32-bit value, as
`byteorder`'s `read_i32`. -/
def toI32 (u : Nat) : Int :=
  if u < 2 ^ 31 then (u : Int) else (u : Int) - 2 ^ 32

/-- Two's-complement reinterpretation of an 8-bit value, as Rust's
`x as i8`. -/
def toI8 (u : Nat) : Int :=
  if u < 2 ^ 7 then (u : Int) else (u : Int) - 2 ^ 8

/-- Embedding of `TIFFReader::bytes_to_tag_value` (src/reader.rs): the
byte span is partitioned with `chunks_exact` per type (2 for short
variants, 4 for long/float variants, 4-then-paired for rationals, 8 for
doubles) and decoded in the active byte order; `Undefined` becomes an
empty byte array. -/
def bytes_to_tag_value (e : TIFFByteOrder) (vec : List Nat) (tpe : TagType) :
    TaggedData :=
  match tpe with
  | .Byte => .byte vec
  | .ASCII => .ascii vec
  | .Short => .short ((chunksExact 2 vec).map (readU16Chunk e))
  | .Long => .long ((chunksExact 4 vec).map (readU32Chunk e))
  | .Rational =>
    .rational ((pairUp (chunksExact 4 vec)).map
      (fun p => (readU32Chunk e p.1, readU32Chunk e p.2)))
  | .SignedByte => .signedByte (vec.map toI8)
  | .SignedShort =>
    .signedShort ((chunksExact 2 vec).map (fun c => toI16 (readU16Chunk e c)))
  | .SignedLong =>
    .signedLong ((chunksExact 4 vec).map (fun c => toI32 (readU32Chunk e c)))
  | .SignedRational =>
    .signedRational ((pairUp (chunksExact 4 vec)).map
      (fun p => (toI32 (readU32Chunk e p.1), toI32 (readU32Chunk e p.2))))
  | .Float => .float ((chunksExact 4 vec).map (readU32Chunk e))
  | .Double => .double ((chunksExact 8 vec).map (readU64 e))
  | .Undefined => .byte []

/-- Embedding of `TIFFReader::vec_to_value` (src/reader.rs): a byte
vector of length 0/1/2/4/8 becomes a `usize`; any other length panics
(`none`). -/
def vec_to_value (e : TIFFByteOrder) (vec : List Nat) : Option Nat :=
  match vec with
  | [] => some 0
  | [b0] => some b0
  | [b0, b1] => some (readU16 e b0 b1)
  | [b0, b1, b2, b3] => some (readU32 e b0 b1 b2 b3)
  | [_, _, _, _, _, _, _, _] => some (readU64 e vec)
  | _ => none

/-- Embedding of `TIFFReader::read_tag` (src/reader.rs): read the
12-byte record at `ifd_offset + 12 * entry_number`, decode the tag
(a recoverable `Err`) and the type (`expect`, a panic), compute
`total_size = count * tag_size` as a wrapping u32 multiplication, then
read the value bytes inline (at the record's value field, record start
plus 8) when `total_size <= 4` and at the absolute `value_offset`
otherwise. -/
def read_tag (e : TIFFByteOrder) (file : List Nat)
    (ifd_offset entry_number : Nat) : Option (Except String IFDEntry) :=
  let base := ifd_offset + 12 * entry_number
  match readU16At e file base with
  | .error msg => some (.error msg)
  | .ok tag_value =>
  match readU16At e file (base + 2) with
  | .error msg => some (.error msg)
  | .ok tpe_value =>
  match readU32At e file (base + 4) with
  | .error msg => some (.error msg)
  | .ok count_value =>
  match readU32At e file (base + 8) with
  | .error msg => some (.error msg)
  | .ok value_offset_value =>
  match decode_tag tag_value with
  | none => some (.error "Invalid tag")
  | some tag =>
  match decode_tag_type tpe_value with
  | none => none
  | some tpe =>
    let value_size := tag_size tpe
    let total_size := count_value * value_size % 2 ^ 32
    let number_of_bytes_to_read := total_size
    let values :=
      if total_size ≤ 4 then
        read_n file (ifd_offset + 12 * entry_number + 8) number_of_bytes_to_read
      else
        read_n file value_offset_value number_of_bytes_to_read
    match values with
    | none => none
    | some vs =>
      some (.ok { tag := tag, tpe := tpe, count := count_value,
                  value_offset := value_offset_value,
                  value := bytes_to_tag_value e vs tpe })

/-- Embedding of the entry loop of `TIFFReader::read_IFD`: each entry is
read with `read_tag`; an `Err` entry is reported and dropped, an `Ok`
entry is pushed, a panic propagates. -/
def readEntries (e : TIFFByteOrder) (file : List Nat) (base : Nat) :
    List Nat → Option (List IFDEntry)
  | [] => some []
  | i :: is =>
    match read_tag e file base i with
    | none => none
    | some (.error _) => readEntries e file base is
    | some (.ok ent) =>
      match readEntries e file base is with
      | none => none
      | some es => some (ent :: es)

/-- Embedding of `TIFFReader::read_IFD` (src/reader.rs): a 16-bit entry
count at the directory offset, then the entries at
`ifd_offset + 2 + 12 * i`. -/
def read_IFD (e : TIFFByteOrder) (file : List Nat) (ifd_offset : Nat) :
    Option (Except String IFD) :=
  match readU16At e file ifd_offset with
  | .error msg => some (.error msg)
  | .ok entry_count =>
    match readEntries e file (ifd_offset + 2) (List.range entry_count) with
    | none => none
    | some es => some (.ok { count := entry_count, entries := es })

/-- Strip layout data, from `StripImageData` in src/reader.rs. -/
structure StripImageData where
  strip_offsets : List Nat
  strip_row_byte_countt : List Nat
  rows_per_strip : Nat
  deriving DecidableEq, Repr

/-- Tile layout data, from `TiledImageData` in src/reader.rs. -/
structure TiledImageData where
  tile_width : Nat
  tile_length : Nat
  tile_bytes_counts : IFDEntry
  tile_bytes_offsets : IFDEntry
  deriving DecidableEq, Repr

/-- Reconstructed sample arrays: rows of pixels of samples, the
`Vec<Vec<Vec<usize>>>` of src/reader.rs. -/
abbrev Img : Type := List (List (List Nat))

/-- Construction of the initial output array of `read_strip_image` and
`read_tiled_image`: `image_length` rows of `image_width` empty pixel
vectors. -/
def emptyImage (image_length image_width : Nat) : Img :=
  List.replicate image_length (List.replicate image_width ([] : List Nat))

/-- Cursor state of the reconstruction loops: the three indices and the
output array. -/
structure FillState where
  x : Nat
  y : Nat
  z : Nat
  img : List (List (List Nat))

/-- One iteration of the strip loop body of `read_strip_image`
(src/reader.rs): read one `image_depth`-byte chunk at `pos`, convert it,
push it into `img[curr_x][curr_y]` (an out-of-range index panics), then
advance `curr_z`, wrapping into `curr_y` against the pixel's length and
into `curr_x` against the row's length. -/
def stripStep (e : TIFFByteOrder) (file : List Nat) (d pos : Nat)
    (st : FillState) : Option FillState :=
  match read_n file pos d with
  | none => none
  | some v =>
    match vec_to_value e v with
    | none => none
    | some val =>
      match st.img.get? st.x with
      | none => none
      | some row =>
        match row.get? st.y with
        | none => none
        | some pix =>
          let pix' := pix ++ [val]
          let row' := row.set st.y pix'
          let img' := st.img.set st.x row'
          let z1 := st.z + 1
          let p1 := if z1 ≥ pix'.length then (0, st.y + 1) else (z1, st.y)
          let p2 := if p1.2 ≥ row'.length then (0, st.x + 1) else (p1.2, st.x)
          some { x := p2.2, y := p2.1, z := p1.1, img := img' }

/-- Iteration of `stripStep` over the `byte_count / image_depth` chunks
of one strip, the reader position advancing by `image_depth` per
chunk. -/
def stripChunks (e : TIFFByteOrder) (file : List Nat) (d : Nat) :
    Nat → Nat → FillState → Option FillState
  | 0, _, st => some st
  | k + 1, pos, st =>
    match stripStep e file d pos st with
    | none => none
    | some st' => stripChunks e file d k (pos + d) st'

/-- Embedding of the outer strip loop of `read_strip_image`: one pass
per `(offset, byte_count)` pair, the cursor state persisting across
strips; the division `byte_count / image_depth` panics when
`image_depth` is zero. -/
def stripStrips (e : TIFFByteOrder) (file : List Nat) (d : Nat) :
    List (Nat × Nat) → FillState → Option FillState
  | [], st => some st
  | (off, bc) :: rest, st =>
    if d = 0 then none
    else
      match stripChunks e file d (bc / d) off st with
      | none => none
      | some st' => stripStrips e file d rest st'

/-- Embedding of `TIFFReader::read_strip_image` (src/reader.rs): resolve
the geometry from the IFD, build the empty output array, then run the
strip loop from cursor `(0, 0, 0)`. -/
def read_strip_image (e : TIFFByteOrder) (file : List Nat) (ifd : IFD)
    (specs : StripImageData) : Option (Except String Img) :=
  match ifd.get_image_length with
  | none => none
  | some (.error msg) => some (.error msg)
  | some (.ok image_length) =>
  match ifd.get_image_width with
  | none => none
  | some (.error msg) => some (.error msg)
  | some (.ok image_width) =>
  match ifd.get_bytes_per_sample with
  | none => none
  | some (.error msg) => some (.error msg)
  | some (.ok image_depth) =>
    let img0 := emptyImage image_length image_width
    match stripStrips e file image_depth
        (specs.strip_offsets.zip specs.strip_row_byte_countt)
        { x := 0, y := 0, z := 0, img := img0 } with
    | none => none
    | some st => some (.ok st.img)

/-- Geometry of the n-th tile inside `read_tiled_image` (src/reader.rs):
`tile_col = n % tiles_across`, `tile_row = n / tiles_across`,
`start_x = tile_col * tile_width`, `end_x = (tile_col + 1) * tile_width`,
`start_y = tiles_down * tile_length - (tile_row + 1) * tile_length`.
A zero `tiles_across` panics in `%`, and an underflow of the usize
subtraction panics; both are `none`. -/
def tileGeometry (n tiles_across tiles_down tile_width tile_length : Nat) :
    Option (Nat × Nat × Nat) :=
  if tiles_across = 0 then none
  else
    let tile_col := n % tiles_across
    let tile_row := n / tiles_across
    let start_x := tile_col * tile_width
    let end_x := (tile_col + 1) * tile_width
    let max_y := tiles_down * tile_length
    if (tile_row + 1) * tile_length ≤ max_y then
      some (start_x, end_x, max_y - (tile_row + 1) * tile_length)
    else none

/-- One iteration of the tile loop body of `read_tiled_image`
(src/reader.rs): read one chunk; if the cursor is outside the true image
bounds the chunk is discarded while still advancing the cursor (the
z-capacity there is `img[0][0].len()`); otherwise the converted value is
pushed into `img[curr_y][curr_x]` and the cursor advances, `curr_x`
wrapping against `end_x`. -/
def tileStep (e : TIFFByteOrder) (file : List Nat)
    (d image_width image_length start_x end_x pos : Nat)
    (st : FillState) : Option FillState :=
  match read_n file pos d with
  | none => none
  | some v =>
    if st.x ≥ image_width ∨ st.y ≥ image_length then
      match st.img.get? 0 with
      | none => none
      | some row0 =>
        match row0.get? 0 with
        | none => none
        | some pix00 =>
          let z1 := st.z + 1
          let p1 := if z1 ≥ pix00.length then (0, st.x + 1) else (z1, st.x)
          let p2 := if p1.2 ≥ end_x then (start_x, st.y + 1) else (p1.2, st.y)
          some { x := p2.1, y := p2.2, z := p1.1, img := st.img }
    else
      match vec_to_value e v with
      | none => none
      | some val =>
        match st.img.get? st.y with
        | none => none
        | some row =>
          match row.get? st.x with
          | none => none
          | some pix =>
            let pix' := pix ++ [val]
            let img' := st.img.set st.y (row.set st.x pix')
            let z1 := st.z + 1
            let p1 := if z1 ≥ pix'.length then (0, st.x + 1) else (z1, st.x)
            let p2 := if p1.2 ≥ end_x then (start_x, st.y + 1) else (p1.2, st.y)
            some { x := p2.1, y := p2.2, z := p1.1, img := img' }

/-- Iteration of `tileStep` over the `byte_count / image_depth` chunks
of one tile. -/
def tileChunks (e : TIFFByteOrder) (file : List Nat)
    (d image_width image_length start_x end_x : Nat) :
    Nat → Nat → FillState → Option FillState
  | 0, _, st => some st
  | k + 1, pos, st =>
    match tileStep e file d image_width image_length start_x end_x pos st with
    | none => none
    | some st' => tileChunks e file d image_width image_length start_x end_x k (pos + d) st'

/-- Embedding of the outer tile loop of `read_tiled_image`: the n-th
`(offset, byte_count)` pair is placed by `tileGeometry`; `curr_x` and
`curr_y` restart at the tile's corner while `curr_z` persists across
tiles. -/
def tileTiles (e : TIFFByteOrder) (file : List Nat)
    (d image_width image_length tiles_across tiles_down tile_width tile_length : Nat) :
    Nat → List (Nat × Nat) → FillState → Option FillState
  | _, [], st => some st
  | n, (off, bc) :: rest, st =>
    match tileGeometry n tiles_across tiles_down tile_width tile_length with
    | none => none
    | some (start_x, end_x, start_y) =>
      if d = 0 then none
      else
        match tileChunks e file d image_width image_length start_x end_x
            (bc / d) off { x := start_x, y := start_y, z := st.z, img := st.img } with
        | none => none
        | some st' =>
          tileTiles e file d image_width image_length tiles_across tiles_down
            tile_width tile_length (n + 1) rest st'

/-- Embedding of `TIFFReader::read_tiled_image` (src/reader.rs): resolve
the geometry from the IFD, read the tile offsets and byte counts with
`as_unsigned_ints` (an `Err` when not convertible), compute the tile
grid with ceiling divisions (zero tile dimensions panic), then run the
tile loop. -/
def read_tiled_image (e : TIFFByteOrder) (file : List Nat) (ifd : IFD)
    (specs : TiledImageData) : Option (Except String Img) :=
  match ifd.get_image_length with
  | none => none
  | some (.error msg) => some (.error msg)
  | some (.ok image_length) =>
  match ifd.get_image_width with
  | none => none
  | some (.error msg) => some (.error msg)
  | some (.ok image_width) =>
  match ifd.get_bytes_per_sample with
  | none => none
  | some (.error msg) => some (.error msg)
  | some (.ok image_depth) =>
    let img0 := emptyImage image_length image_width
    match specs.tile_bytes_offsets.value.as_unsigned_ints with
    | none => some (.error "Couldn't read offsets")
    | some offsets =>
    match specs.tile_bytes_counts.value.as_unsigned_ints with
    | none => some (.error "Couldn't read byte counts")
    | some byte_counts =>
      if specs.tile_width = 0 ∨ specs.tile_length = 0 then none
      else
        let tiles_across := (image_width + specs.tile_width - 1) / specs.tile_width
        let tiles_down := (image_length + specs.tile_length - 1) / specs.tile_length
        match tileTiles e file image_depth image_width image_length tiles_across
            tiles_down specs.tile_width specs.tile_length 0
            (offsets.zip byte_counts) { x := 0, y := 0, z := 0, img := img0 } with
        | none => none
        | some st => some (.ok st.img)

/-- The top-level decoded result, from `TIFF` in src/tiff.rs. -/
structure TIFF where
  ifds : List IFD
  image_data : List (List (List Nat))

/-- Embedding of `TIFF::get_value_at` (src/lib.rs):
`self.image_data[lon][lat][0]`, any out-of-range index panicking
(`none`). -/
def TIFF.get_value_at (t : TIFF) (lon lat : Nat) : Option Nat :=
  match t.image_data.get? lon with
  | none => none
  | some row =>
    match row.get? lat with
    | none => none
    | some pix => pix.get? 0

/-! Concrete fixtures used by the claim theorems, witnesses and
counterexamples. -/

/-- Directory of a 2-by-2 single-band image with 8 bits per sample. -/
def ifd2x2 : IFD :=
  { count := 3,
    entries :=
      [ { tag := .ImageWidthTag, tpe := .Short, count := 1, value_offset := 0,
          value := .short [2] },
        { tag := .ImageLengthTag, tpe := .Short, count := 1, value_offset := 0,
          value := .short [2] },
        { tag := .BitsPerSampleTag, tpe := .Short, count := 1, value_offset := 0,
          value := .short [8] } ] }

/-- Strip layout for the 2-by-2 fixture: one strip at offset 0 covering
all 4 bytes. -/
def stripSpec4 : StripImageData :=
  { strip_offsets := [0], strip_row_byte_countt := [4], rows_per_strip := 0 }

/-- Tile layout for the 2-by-2 fixture: one 2-by-2 tile at offset 0. -/
def tileSpec2x2 : TiledImageData :=
  { tile_width := 2, tile_length := 2,
    tile_bytes_counts :=
      { tag := .StripByteCountsTag, tpe := .Short, count := 1,
        value_offset := 0, value := .short [4] },
    tile_bytes_offsets :=
      { tag := .StripOffsetsTag, tpe := .Short, count := 1,
        value_offset := 0, value := .short [0] } }

/-- Tile layout for the 2-by-2 fixture with two 2-by-1 tiles, at offsets
0 and 2. -/
def tileSpec2x1 : TiledImageData :=
  { tile_width := 2, tile_length := 1,
    tile_bytes_counts :=
      { tag := .StripByteCountsTag, tpe := .Short, count := 2,
        value_offset := 0, value := .short [2, 2] },
    tile_bytes_offsets :=
      { tag := .StripOffsetsTag, tpe := .Short, count := 2,
        value_offset := 0, value := .short [0, 2] } }

/-- GeoKey directory fixture with header `(1, 1, 0, 2)`, a first record
`(1024, 34736, 3, 7)` whose location is nonzero and whose count is not
one, and a well-formed second record `(2048, 0, 1, 4326)`. -/
def geoBadIFD : IFD :=
  { count := 1,
    entries :=
      [ { tag := .GeoKeyDirectoryTag, tpe := .Short, count := 12,
          value_offset := 0,
          value := .short [1, 1, 0, 2, 1024, 34736, 3, 7, 2048, 0, 1, 4326] } ] }

/-- GeoKey directory fixture with header `(1, 1, 0, 1)` and the single
record `(1024, 5, 0, 7)` whose location is nonzero and whose count is
not one. -/
def geoBad1IFD : IFD :=
  { count := 1,
    entries :=
      [ { tag := .GeoKeyDirectoryTag, tpe := .Short, count := 8,
          value_offset := 0,
          value := .short [1, 1, 0, 1, 1024, 5, 0, 7] } ] }

/-- Byte file holding a directory with 2 entries: entry 0 has the
recognized tag 0x0100 but the unrecognized type id 0x00ff, entry 1 is a
well-formed inline short (tag 0x0100, type 3, count 1, value 9);
little-endian. -/
def badTypeDirFile : List Nat :=
  [2, 0] ++
  [0x00, 0x01, 0xff, 0x00, 0x01, 0, 0, 0, 0x07, 0, 0, 0] ++
  [0x00, 0x01, 0x03, 0x00, 0x01, 0, 0, 0, 0x09, 0, 0, 0]

/-- Byte file holding a directory with 2 entries: entry 0 has the
unrecognized tag id 0x0001, entry 1 is a well-formed inline short;
little-endian. -/
def badTagDirFile : List Nat :=
  [2, 0] ++
  [0x01, 0x00, 0x03, 0x00, 0x01, 0, 0, 0, 0x07, 0, 0, 0] ++
  [0x00, 0x01, 0x03, 0x00, 0x01, 0, 0, 0, 0x09, 0, 0, 0]

/-- Byte file holding one directory entry of type signed-long (9) with
count 1 (tag 0x0100); little-endian. -/
def signedLongEntryFile : List Nat :=
  [0x00, 0x01, 0x09, 0x00, 0x01, 0, 0, 0, 0xaa, 0xbb, 0x00, 0x00]

/-- Byte file holding one directory entry whose value totals exactly
4 bytes (tag 0x0100, type long, count 1): the value field itself holds
the bytes 0xdd 0xcc 0xbb 0xaa while the positions a seek to the value
field's numeric value would reach hold other bytes. -/
def inline4File : List Nat :=
  [0x00, 0x01, 0x04, 0x00, 0x01, 0, 0, 0, 0xdd, 0xcc, 0xbb, 0xaa] ++
  [0x11, 0x22, 0x33, 0x44, 0x55, 0x66]

/-- Byte file holding one directory entry whose value totals 5 bytes
(tag 0x0100, type byte, count 5): the value field holds the absolute
offset 13, where the 5 value bytes 0x51 to 0x55 are stored. -/
def outOfLine5File : List Nat :=
  [0x00, 0x01, 0x01, 0x00, 0x05, 0, 0, 0, 0x0d, 0x00, 0x00, 0x00] ++
  [0x99] ++ [0x51, 0x52, 0x53, 0x54, 0x55]

/-- Directory whose geometry tags are present but carry a first value of
a variant that is neither `Short` nor `Long` (here signed bytes and a
rational). -/
def wrongTypedGeometryIFD : IFD :=
  { count := 3,
    entries :=
      [ { tag := .ImageWidthTag, tpe := .SignedByte, count := 1,
          value_offset := 0, value := .signedByte [3] },
        { tag := .ImageLengthTag, tpe := .SignedByte, count := 1,
          value_offset := 0, value := .signedByte [5] },
        { tag := .BitsPerSampleTag, tpe := .Rational, count := 1,
          value_offset := 0, value := .rational [(8, 1)] } ] }

/-! Claim theorems. -/

/-- Claim C4: the claim says the per-type element width assigns 4 bytes
to the signed-long type, as for long and float, so that an entry of type
signed-long with count c has exactly 4*c bytes read and decoded into c
signed 32-bit values. The code's `tag_size` maps `SignedLong` to 2 while
its own `bytes_to_tag_value` splits signed-long spans into 4-byte
chunks, so a count-1 signed-long entry gets 2 bytes read and zero values
decoded; this theorem evaluates the code at that failing input. -/
theorem c4_signed_long_width_is_2_not_4 :
    tag_size .SignedLong = 2 ∧
    tag_size .Long = 4 ∧
    tag_size .Float = 4 ∧
    bytes_to_tag_value .LittleEndian [0xaa, 0xbb] .SignedLong =
      .signedLong [] ∧
    read_tag .LittleEndian signedLongEntryFile 0 0 =
      some (.ok { tag := .ImageWidthTag, tpe := .SignedLong, count := 1,
                  value_offset := 0xbbaa, value := .signedLong [] }) := by
  refine ⟨rfl, rfl, rfl, by decide, rfl⟩

/-- Claim C6: header decoding succeeds exactly on the two byte-order
markers — the first 2 bytes as a little-endian u16 equal to 0x4949
select the little-endian strategy, 0x4d4d the big-endian one, everything
else is the invalid-header error — and the next 2 bytes read in the
selected order must equal 42, anything else being the invalid-magic
error. -/
theorem c6_byte_order_gate_and_magic :
    ∀ (b0 b1 b2 b3 : Nat) (rest : List Nat) (e : TIFFByteOrder),
    (read_byte_order (b0 :: b1 :: b2 :: b3 :: rest) = .ok .LittleEndian ↔
        b0 + 256 * b1 = 0x4949) ∧
    (read_byte_order (b0 :: b1 :: b2 :: b3 :: rest) = .ok .BigEndian ↔
        b0 + 256 * b1 = 0x4d4d) ∧
    (read_byte_order (b0 :: b1 :: b2 :: b3 :: rest) =
        .error "Invalid byte order in header." ↔
        (b0 + 256 * b1 ≠ 0x4949 ∧ b0 + 256 * b1 ≠ 0x4d4d)) ∧
    (read_magic e (b0 :: b1 :: b2 :: b3 :: rest) = .ok () ↔
        readU16 e b2 b3 = 42) ∧
    (read_magic e (b0 :: b1 :: b2 :: b3 :: rest) =
        .error "Invalid magic number in header" ↔
        readU16 e b2 b3 ≠ 42) := by
  intro b0 b1 b2 b3 rest e
  have hbo : read_byte_order (b0 :: b1 :: b2 :: b3 :: rest) =
      match byteOrderFromU16 (b0 + 256 * b1) with
      | some bo => .ok bo
      | none => .error "Invalid byte order in header." := rfl
  have hmg : read_magic e (b0 :: b1 :: b2 :: b3 :: rest) =
      (if readU16 e b2 b3 = 42 then .ok ()
       else .error "Invalid magic number in header") := rfl
  rw [hbo, hmg]
  unfold byteOrderFromU16
  refine ⟨?_, ?_, ?_, ?_, ?_⟩ <;> split_ifs <;> simp_all

/-- Claim C7: decoding a synthetic strip-based single-band 2-by-2 image
with 8 bits per sample, one sample per pixel, and one strip covering all
4 pixel bytes reproduces exactly those 4 byte values at their (row, col)
positions of the output array in row-major order. -/
theorem c7_strip_2x2_roundtrip :
    ∀ b0 b1 b2 b3 : Nat,
    read_strip_image .LittleEndian [b0, b1, b2, b3] ifd2x2 stripSpec4 =
      some (.ok [[[b0], [b1]], [[b2], [b3]]]) := by
  intro b0 b1 b2 b3
  rfl

/-- Claim C10: when the image-width, image-length, or bits-per-sample
tag is present but its entry's first value is of a variant other than
`Short` or `Long`, the geometry accessors return `Ok(0)` rather than an
error. -/
theorem c10_wrong_typed_geometry_yields_zero :
    ∀ (ifd : IFD) (eL eW eB : IFDEntry) (vL vW vB : TagValue),
    ifd.entries.find? (fun e => e.tag == TIFFTag.ImageLengthTag) = some eL →
    ifd.entries.find? (fun e => e.tag == TIFFTag.ImageWidthTag) = some eW →
    ifd.entries.find? (fun e => e.tag == TIFFTag.BitsPerSampleTag) = some eB →
    eL.value.asList.get? 0 = some vL →
    eW.value.asList.get? 0 = some vW →
    eB.value.asList.get? 0 = some vB →
    (∀ n, vL ≠ .ShortV n ∧ vL ≠ .LongV n) →
    (∀ n, vW ≠ .ShortV n ∧ vW ≠ .LongV n) →
    (∀ n, vB ≠ .ShortV n ∧ vB ≠ .LongV n) →
    ifd.get_image_length = some (.ok 0) ∧
    ifd.get_image_width = some (.ok 0) ∧
    ifd.get_bytes_per_sample = some (.ok 0) := by
  intro ifd eL eW eB vL vW vB hL hW hB hvL hvW hvB hnL hnW hnB
  simp only [IFD.get_image_length, IFD.get_image_width,
    IFD.get_bytes_per_sample, hL, hW, hB, extract_value_or_0, hvL, hvW, hvB]
  refine ⟨?_, ?_, ?_⟩
  · cases vL with
    | ShortV n => exact absurd rfl (hnL n).1
    | LongV n => exact absurd rfl (hnL n).2
    | _ => rfl
  · cases vW with
    | ShortV n => exact absurd rfl (hnW n).1
    | LongV n => exact absurd rfl (hnW n).2
    | _ => rfl
  · cases vB with
    | ShortV n => exact absurd rfl (hnB n).1
    | LongV n => exact absurd rfl (hnB n).2
    | _ => rfl

/-- Witness for C10 at a concrete directory whose geometry tags carry
signed-byte and rational first values. -/
theorem c10_wrong_typed_geometry_witness :
    wrongTypedGeometryIFD.get_image_length = some (.ok 0) ∧
    wrongTypedGeometryIFD.get_image_width = some (.ok 0) ∧
    wrongTypedGeometryIFD.get_bytes_per_sample = some (.ok 0) :=
  c10_wrong_typed_geometry_yields_zero wrongTypedGeometryIFD _ _ _
    (.SignedByteV 5) (.SignedByteV 3) (.RationalV 8 1)
    rfl rfl rfl rfl rfl rfl
    (fun n => ⟨by simp, by simp⟩) (fun n => ⟨by simp, by simp⟩)
    (fun n => ⟨by simp, by simp⟩)

/-- Claim C5: for a directory entry whose header fields decode, the
value bytes are read from the entry's own value field (record start plus
8) when `count * type_size <= 4`, never from a seek to `value_offset`,
and from the absolute offset `value_offset` when the total exceeds 4;
the hypothesis `count * tag_size tpe < 2 ^ 32` excludes u32 wrap-around
of the size product (which would panic in a debug build). -/
theorem c5_value_location :
    ∀ (e : TIFFByteOrder) (file : List Nat)
      (ifd_offset n tag_value tpe_value count voff : Nat)
      (tag : TIFFTag) (tpe : TagType),
    readU16At e file (ifd_offset + 12 * n) = .ok tag_value →
    readU16At e file (ifd_offset + 12 * n + 2) = .ok tpe_value →
    readU32At e file (ifd_offset + 12 * n + 4) = .ok count →
    readU32At e file (ifd_offset + 12 * n + 8) = .ok voff →
    decode_tag tag_value = some tag →
    decode_tag_type tpe_value = some tpe →
    count * tag_size tpe < 2 ^ 32 →
    read_tag e file ifd_offset n =
      (read_n file
          (if count * tag_size tpe ≤ 4 then ifd_offset + 12 * n + 8 else voff)
          (count * tag_size tpe)).map
        (fun vs => .ok { tag := tag, tpe := tpe, count := count,
                         value_offset := voff,
                         value := bytes_to_tag_value e vs tpe }) := by
  intro e file ifd_offset n tag_value tpe_value count voff tag tpe
    h1 h2 h3 h4 h5 h6 h7
  simp only [read_tag, h1, h2, h3, h4, h5, h6, Nat.mod_eq_of_lt h7]
  by_cases hle : count * tag_size tpe ≤ 4
  · simp only [if_pos hle]
    cases read_n file (ifd_offset + 12 * n + 8) (count * tag_size tpe) <;> rfl
  · simp only [if_neg hle]
    cases read_n file voff (count * tag_size tpe) <;> rfl

/-- Witness for C5 at two concrete records: a long of count 1 (total
exactly 4 bytes, read inline from the record's own value field even
though the field's numeric value points far outside the file) and a byte
array of count 5 (total 5 bytes, read at the absolute offset 13). -/
theorem c5_value_location_witness :
    read_tag .LittleEndian inline4File 0 0 =
      some (.ok { tag := .ImageWidthTag, tpe := .Long, count := 1,
                  value_offset := 0xaabbccdd,
                  value := .long [0xaabbccdd] }) ∧
    read_tag .LittleEndian outOfLine5File 0 0 =
      some (.ok { tag := .ImageWidthTag, tpe := .Byte, count := 5,
                  value_offset := 13,
                  value := .byte [0x51, 0x52, 0x53, 0x54, 0x55] }) := by
  constructor
  · have h := c5_value_location .LittleEndian inline4File 0 0
      0x0100 4 1 0xaabbccdd .ImageWidthTag .Long
      rfl rfl rfl rfl rfl rfl (by decide)
    rw [h]; rfl
  · have h := c5_value_location .LittleEndian outOfLine5File 0 0
      0x0100 1 5 13 .ImageWidthTag .Byte
      rfl rfl rfl rfl rfl rfl (by decide)
    rw [h]; rfl

/-- Claim C9: in tiled reconstruction the n-th tile's grid position is
`tile_col = n % tiles_across`, `tile_row = n / tiles_across`, its column
span is `[tile_col * tile_width, (tile_col + 1) * tile_width)`, and its
first image row is `tiles_down * tile_length - (tile_row + 1) *
tile_length`, so the first tile row lands at the bottom of the image;
the concrete conjunct shows the first stored tile of a 2-by-2 image cut
into two 2-by-1 tiles ending up in the bottom row of the output. -/
theorem c9_tile_placement :
    (∀ n ta td tw tl : Nat, 0 < ta → n / ta + 1 ≤ td →
      tileGeometry n ta td tw tl =
        some (n % ta * tw, (n % ta + 1) * tw, td * tl - (n / ta + 1) * tl) ∧
      (n < ta → td * tl - (n / ta + 1) * tl = (td - 1) * tl)) ∧
    read_tiled_image .LittleEndian [10, 20, 30, 40] ifd2x2 tileSpec2x1 =
      some (.ok [[[30], [40]], [[10], [20]]]) := by
  constructor
  · intro n ta td tw tl hta htd
    constructor
    · simp only [tileGeometry, if_neg (Nat.pos_iff_ne_zero.mp hta)]
      rw [if_pos (Nat.mul_le_mul_right tl htd)]
    · intro hlt
      rw [Nat.div_eq_of_lt hlt, Nat.sub_mul]
  · rfl

/-- Witness for C9's tile-geometry component at the concrete grid of the
two-tile fixture (tile 0 of a 1-across, 2-down grid with 2-by-1
tiles). -/
theorem c9_tile_placement_witness :
    tileGeometry 0 1 2 2 1 =
      some (0 % 1 * 2, (0 % 1 + 1) * 2, 2 * 1 - (0 / 1 + 1) * 1) ∧
    (0 < 1 → 2 * 1 - (0 / 1 + 1) * 1 = (2 - 1) * 1) :=
  c9_tile_placement.1 0 1 2 2 1 (by decide) (by decide)

/-- Mapping `chunk4` through an element-wise `map`. -/
theorem chunk4_map {α β : Type} (f : α → β) : ∀ l : List α,
    chunk4 (l.map f) =
      (chunk4 l).map (fun r => (f r.1, f r.2.1, f r.2.2.1, f r.2.2.2))
  | _ :: _ :: _ :: _ :: t => by
    simp only [List.map_cons, chunk4, List.map]
    exact congrArg _ (chunk4_map f t)
  | [] => rfl
  | [_] => rfl
  | [_, _] => rfl
  | [_, _, _] => rfl

/-- A GeoKey record of shorts with nonzero location and count other than
one makes the record closure panic. -/
theorem parseGeoRecord_short_bad (i loc cnt vo : Nat)
    (hloc : loc ≠ 0) (hcnt : cnt ≠ 1) :
    parseGeoRecord (.ShortV i, .ShortV loc, .ShortV cnt, .ShortV vo) =
      none := by
  simp [parseGeoRecord, TagValue.as_unsigned_int, hloc, hcnt]

/-- A GeoKey record of shorts with zero location or count one decodes to
its key. -/
theorem parseGeoRecord_short_ok (i loc cnt vo : Nat)
    (h : loc = 0 ∨ cnt = 1) :
    parseGeoRecord (.ShortV i, .ShortV loc, .ShortV cnt, .ShortV vo) =
      some (some (geoKeyOf i vo)) := by
  rcases h with h | h <;>
    simp [parseGeoRecord, TagValue.as_unsigned_int, TagValue.as_short, h]

/-- Collecting a list of all-short GeoKey records panics as soon as it
contains a record with nonzero location and count other than one. -/
theorem geoCollect_short_bad : ∀ recs : List (Nat × Nat × Nat × Nat),
    (∃ r ∈ recs, r.2.1 ≠ 0 ∧ r.2.2.1 ≠ 1) →
    geoCollect (recs.map (fun r =>
      (TagValue.ShortV r.1, TagValue.ShortV r.2.1,
       TagValue.ShortV r.2.2.1, TagValue.ShortV r.2.2.2))) = none := by
  intro recs
  induction recs with
  | nil => rintro ⟨r, hr, -⟩; exact absurd hr (List.not_mem_nil r)
  | cons hd tl ih =>
    rintro ⟨r, hr, hbad⟩
    obtain ⟨i, loc, cnt, vo⟩ := hd
    rcases List.mem_cons.mp hr with heq | htl
    · subst heq
      simp [geoCollect, parseGeoRecord_short_bad _ _ _ _ hbad.1 hbad.2]
    · by_cases hb : loc ≠ 0 ∧ cnt ≠ 1
      · simp [geoCollect, parseGeoRecord_short_bad i loc cnt vo hb.1 hb.2]
      · have hok : loc = 0 ∨ cnt = 1 := by tauto
        simp [geoCollect, parseGeoRecord_short_ok i loc cnt vo hok,
          ih ⟨r, htl, hbad⟩]

/-- Counterexample to claim C1: the claim says a GeoKey record with
nonzero location and count other than one is skipped with a diagnostic
while the remaining records are still decoded. On the fixture with the
record `(1024, 34736, 3, 7)` followed by the well-formed record
`(2048, 0, 1, 4326)`, `get_geo_keys` panics (result `none`): the record
is not skipped and the remaining record is never decoded. -/
theorem c1_bad_record_panics_counterexample :
    geoBadIFD.get_geo_keys = none := by
  rfl

/-- Claim C1 as amended: whenever any record of the first `key_count`
4-element records of an all-short GeoKey directory has a nonzero
location and a count other than one, `get_geo_keys` panics, aborting the
whole directory, rather than skipping that record. -/
theorem c1_bad_record_panics :
    ∀ (ifd : IFD) (x : IFDEntry) (v0 v1 v2 v3 : Nat) (vs : List Nat),
    ifd.entries.find? (fun e => e.tag == TIFFTag.GeoKeyDirectoryTag) =
      some x →
    x.value = .short (v0 :: v1 :: v2 :: v3 :: vs) →
    (∃ r ∈ chunk4 (vs.take (v3 * 4)), r.2.1 ≠ 0 ∧ r.2.2.1 ≠ 1) →
    ifd.get_geo_keys = none := by
  intro ifd x v0 v1 v2 v3 vs hfind hval hbad
  have heq : ifd.get_geo_keys =
      match geoCollect (chunk4 ((List.map TagValue.ShortV vs).take (v3 * 4))) with
      | none => none
      | some none => some (.error "Could not parse geo keys properly")
      | some (some ks) => some (.ok ks) := by
    unfold IFD.get_geo_keys
    rw [hfind]
    simp only [hval]
    rfl
  rw [heq, ← List.map_take, chunk4_map,
    geoCollect_short_bad (vs.take (v3 * 4) |> chunk4) hbad]

/-- Witness for the amended C1 at the single-record fixture
`(1024, 5, 0, 7)`. -/
theorem c1_bad_record_panics_witness : geoBad1IFD.get_geo_keys = none :=
  c1_bad_record_panics geoBad1IFD _ 1 1 0 1 [1024, 5, 0, 7] rfl rfl
    ⟨(1024, 5, 0, 7), by decide, by decide, by decide⟩

/-- When no entry read panics, the entry loop keeps exactly the `Ok`
entries, in order. -/
theorem readEntries_no_panic (e : TIFFByteOrder) (file : List Nat)
    (base : Nat) : ∀ is : List Nat,
    (∀ i ∈ is, read_tag e file base i ≠ none) →
    readEntries e file base is =
      some (is.filterMap (fun i =>
        match read_tag e file base i with
        | some (.ok en) => some en
        | _ => none)) := by
  intro is
  induction is with
  | nil => intro _; rfl
  | cons hd tl ih =>
    intro h
    have hrest := ih (fun i hi => h i (List.mem_cons_of_mem hd hi))
    cases hrt : read_tag e file base hd with
    | none => exact absurd hrt (h hd (List.mem_cons_self hd tl))
    | some r =>
      cases r with
      | error msg => simp [readEntries, hrt, List.filterMap_cons, hrest]
      | ok en => simp [readEntries, hrt, List.filterMap_cons, hrest]

/-- A panic while reading any listed entry aborts the whole entry
loop. -/
theorem readEntries_panic (e : TIFFByteOrder) (file : List Nat)
    (base : Nat) : ∀ is : List Nat, ∀ j ∈ is,
    read_tag e file base j = none → readEntries e file base is = none := by
  intro is
  induction is with
  | nil => intro j hj; exact absurd hj (List.not_mem_nil j)
  | cons hd tl ih =>
    intro j hj hnone
    rcases List.mem_cons.mp hj with heq | htl
    · subst heq; simp [readEntries, hnone]
    · cases hrt : read_tag e file base hd with
      | none => simp [readEntries, hrt]
      | some r =>
        cases r with
        | error msg => simp [readEntries, hrt, ih j htl hnone]
        | ok en => simp [readEntries, hrt, ih j htl hnone]

/-- Counterexample to claim C2: the claim says an entry with an
unrecognized tag id or type id is dropped while every other well-formed
entry is still decoded. On the fixture whose entry 0 has the
unrecognized type id 0x00ff and whose entry 1 is well formed, directory
decoding panics (`expect` on the type registry lookup, result `none`):
the well-formed entry 1 is never decoded. -/
theorem c2_unrecognized_type_counterexample :
    read_IFD .LittleEndian badTypeDirFile 0 = none := by
  rfl

/-- Claim C2 as amended: an entry whose tag id is unrecognized becomes a
recoverable per-entry error (`Invalid tag`) and directory decoding keeps
exactly the `Ok` entries of the remaining indices, in order; but an
entry whose type id is unrecognized panics, aborting decoding of the
whole directory. -/
theorem c2_unrecognized_tag_dropped_type_panics :
    (∀ (e : TIFFByteOrder) (file : List Nat) (off cnt : Nat),
      readU16At e file off = .ok cnt →
      (∀ i, i < cnt → read_tag e file (off + 2) i ≠ none) →
      read_IFD e file off =
        some (.ok { count := cnt,
                    entries := (List.range cnt).filterMap (fun i =>
                      match read_tag e file (off + 2) i with
                      | some (.ok en) => some en
                      | _ => none) })) ∧
    (∀ (e : TIFFByteOrder) (file : List Nat) (off cnt j : Nat),
      readU16At e file off = .ok cnt → j < cnt →
      read_tag e file (off + 2) j = none →
      read_IFD e file off = none) ∧
    (∀ (e : TIFFByteOrder) (file : List Nat) (base i tv pv c vo : Nat),
      readU16At e file (base + 12 * i) = .ok tv →
      readU16At e file (base + 12 * i + 2) = .ok pv →
      readU32At e file (base + 12 * i + 4) = .ok c →
      readU32At e file (base + 12 * i + 8) = .ok vo →
      decode_tag tv = none →
      read_tag e file base i = some (.error "Invalid tag")) ∧
    (∀ (e : TIFFByteOrder) (file : List Nat) (base i tv pv c vo : Nat)
       (tag : TIFFTag),
      readU16At e file (base + 12 * i) = .ok tv →
      readU16At e file (base + 12 * i + 2) = .ok pv →
      readU32At e file (base + 12 * i + 4) = .ok c →
      readU32At e file (base + 12 * i + 8) = .ok vo →
      decode_tag tv = some tag →
      decode_tag_type pv = none →
      read_tag e file base i = none) := by
  refine ⟨?_, ?_, ?_, ?_⟩
  · intro e file off cnt h hok
    simp only [read_IFD, h]
    rw [readEntries_no_panic e file (off + 2) (List.range cnt)
      (fun i hi => hok i (List.mem_range.mp hi))]
  · intro e file off cnt j h hj hnone
    simp only [read_IFD, h]
    rw [readEntries_panic e file (off + 2) (List.range cnt) j
      (List.mem_range.mpr hj) hnone]
  · intro e file base i tv pv c vo h1 h2 h3 h4 hdec
    simp only [read_tag, h1, h2, h3, h4, hdec]
  · intro e file base i tv pv c vo tag h1 h2 h3 h4 h5 h6
    simp only [read_tag, h1, h2, h3, h4, h5, h6]

/-- Witness for the amended C2 at the fixture whose entry 0 has the
unrecognized tag id 0x0001: the directory decodes to exactly the one
well-formed entry. -/
theorem c2_unrecognized_tag_dropped_witness :
    read_IFD .LittleEndian badTagDirFile 0 =
      some (.ok { count := 2,
                  entries := [{ tag := .ImageWidthTag, tpe := .Short,
                                count := 1, value_offset := 9,
                                value := .short [9] }] }) := by
  have h := c2_unrecognized_tag_dropped_type_panics.1 .LittleEndian
    badTagDirFile 0 2 rfl (by
      intro i hi
      interval_cases i <;> (rw [Option.ne_none_iff_isSome]; rfl))
  exact h.trans (by rfl)

/-- Counterexample to claim C3: the claim says `get_value_at`, called
with a column index and a row index in that order, returns the first
sample at that (column, row) position of the rows-first array. On the
strip-decoded 2-by-2 image `[[[10],[20]],[[30],[40]]]`, the call with
column 0 and row 1 returns 20 — the sample at row 0, column 1 — while
the first sample at column 0 of row 1 of the rows-first array is 30. -/
theorem c3_accessor_col_row_counterexample :
    read_strip_image .LittleEndian [10, 20, 30, 40] ifd2x2 stripSpec4 =
      some (.ok [[[10], [20]], [[30], [40]]]) ∧
    TIFF.get_value_at
      { ifds := [ifd2x2], image_data := [[[10], [20]], [[30], [40]]] } 0 1 =
      some 20 ∧
    ((([[[10], [20]], [[30], [40]]] : List (List (List Nat))).get? 1).bind
        (fun row => row.get? 0)).bind (fun pix => pix.get? 0) = some 30 ∧
    (20 : Nat) ≠ 30 := by
  exact ⟨rfl, rfl, rfl, by decide⟩

/-- Claim C3 as amended: `get_value_at(a, b)` returns
`image_data[a][b][0]`, so with the rows-first organization of the
reconstructed array the FIRST argument selects the row and the second
the column: on a strip-decoded 2-by-2 single-band image it returns the
sample stored at row `a`, column `b` in row-major order. -/
theorem c3_accessor_first_argument_is_row :
    ∀ (b0 b1 b2 b3 r c : Nat) (img : List (List (List Nat))),
    r < 2 → c < 2 →
    read_strip_image .LittleEndian [b0, b1, b2, b3] ifd2x2 stripSpec4 =
      some (.ok img) →
    TIFF.get_value_at { ifds := [ifd2x2], image_data := img } r c =
      ([b0, b1, b2, b3].drop (2 * r + c)).head? := by
  intro b0 b1 b2 b3 r c img hr hc himg
  have hA : read_strip_image .LittleEndian [b0, b1, b2, b3] ifd2x2
      stripSpec4 = some (.ok [[[b0], [b1]], [[b2], [b3]]]) := rfl
  rw [hA] at himg
  simp only [Option.some.injEq] at himg
  have himg2 : ([[[b0], [b1]], [[b2], [b3]]] : List (List (List Nat))) =
      img := by
    cases himg with
    | refl => rfl
  subst himg2
  interval_cases r <;> interval_cases c <;> rfl

/-- Witness for the amended C3: with first argument 1 and second
argument 0 the accessor returns the row-major sample at row 1, column 0
(the value 30). -/
theorem c3_accessor_first_argument_is_row_witness :
    TIFF.get_value_at
      { ifds := [ifd2x2], image_data := [[[10], [20]], [[30], [40]]] } 1 0 =
      ([10, 20, 30, 40].drop (2 * 1 + 0)).head? :=
  c3_accessor_first_argument_is_row 10 20 30 40 1 0
    [[[10], [20]], [[30], [40]]] (by decide) (by decide) rfl

/-- One strip-loop step from a zero sample index on an empty in-range
pixel: the value lands in pixel (a, b) and the cursor advances
row-major. -/
theorem stripStep_eq (e : TIFFByteOrder) (file : List Nat)
    (d pos a b N val : Nat) (v : List Nat)
    (img : List (List (List Nat))) (row : List (List Nat))
    (hv : read_n file pos d = some v)
    (hval : vec_to_value e v = some val)
    (hrow : img.get? a = some row)
    (hpix : row.get? b = some [])
    (hrowlen : row.length = N) :
    stripStep e file d pos { x := a, y := b, z := 0, img := img } =
      some (if b + 1 ≥ N then
              { x := a + 1, y := 0, z := 0, img := img.set a (row.set b [val]) }
            else
              { x := a, y := b + 1, z := 0, img := img.set a (row.set b [val]) }) := by
  simp only [stripStep, hv, hval, hrow, hpix, List.nil_append,
    List.length_cons, List.length_nil, List.length_set, hrowlen, zero_add,
    ge_iff_le, le_refl, if_true]
  by_cases hbN : N ≤ b + 1
  · rw [if_pos hbN, if_pos hbN]
  · rw [if_neg hbN, if_neg hbN]

/-- One tile-loop step from a zero sample index on an empty in-range
pixel of a full-width single-tile layout: identical update to the strip
step with the cursor coordinates transposed. -/
theorem tileStep_eq (e : TIFFByteOrder) (file : List Nat)
    (d pos a b N val : Nat) (v : List Nat)
    (img : List (List (List Nat))) (row : List (List Nat))
    (hv : read_n file pos d = some v)
    (hval : vec_to_value e v = some val)
    (hrow : img.get? a = some row)
    (hpix : row.get? b = some [])
    (ha : a < N) (hb : b < N) :
    tileStep e file d N N 0 N pos { x := b, y := a, z := 0, img := img } =
      some (if b + 1 ≥ N then
              { x := 0, y := a + 1, z := 0, img := img.set a (row.set b [val]) }
            else
              { x := b + 1, y := a, z := 0, img := img.set a (row.set b [val]) }) := by
  have hcond : ¬ (b ≥ N ∨ a ≥ N) := by omega
  simp only [tileStep, hv, hcond, if_false, hval, hrow, hpix,
    List.nil_append, List.length_cons, List.length_nil, zero_add,
    ge_iff_le, le_refl, if_true]
  by_cases hbN : N ≤ b + 1
  · rw [if_pos hbN, if_pos hbN]
  · rw [if_neg hbN, if_neg hbN]

/-- Joint induction for C8: on a square N-by-N image with a single
full-image tile (corner (0,0), right edge N), the tile chunk loop and
the strip chunk loop perform identical updates, their cursor coordinates
transposed, as long as at most the remaining pixels are consumed. -/
theorem tile_strip_chunks_eq (e : TIFFByteOrder) (file : List Nat)
    (d N : Nat) (hN : 0 < N) :
    ∀ (k a b pos : Nat) (img : List (List (List Nat))),
    img.length = N →
    (∀ row ∈ img, row.length = N) →
    b < N →
    N * a + b + k ≤ N * N →
    (∀ i j row pix, j < N → N * a + b ≤ N * i + j →
        img.get? i = some row → row.get? j = some pix → pix = []) →
    tileChunks e file d N N 0 N k pos { x := b, y := a, z := 0, img := img } =
      Option.map (fun st => { x := st.y, y := st.x, z := st.z, img := st.img })
        (stripChunks e file d k pos { x := a, y := b, z := 0, img := img }) := by
  intro k
  induction k with
  | zero => intros; rfl
  | succ k ih =>
    intro a b pos img hlen hrows hb hcount hempty
    have haN : a < N := by
      by_contra hge
      push_neg at hge
      have : N * N ≤ N * a := Nat.mul_le_mul_left N hge
      linarith
    obtain ⟨row, hrow⟩ : ∃ row, img.get? a = some row :=
      ⟨_, List.get?_eq_get (hlen ▸ haN)⟩
    have hrowlen : row.length = N := hrows row (List.get?_mem hrow)
    obtain ⟨pix, hpix⟩ : ∃ pix, row.get? b = some pix :=
      ⟨_, List.get?_eq_get (hrowlen ▸ hb)⟩
    have hpixnil : pix = [] := hempty a b row pix hb (Nat.le_refl _) hrow hpix
    subst hpixnil
    simp only [stripChunks, tileChunks]
    cases hv : read_n file pos d with
    | none =>
      have hs : stripStep e file d pos { x := a, y := b, z := 0, img := img } =
          none := by simp only [stripStep, hv]
      have ht : tileStep e file d N N 0 N pos
          { x := b, y := a, z := 0, img := img } = none := by
        simp only [tileStep, hv]
      rw [hs, ht]
      rfl
    | some v =>
      cases hval : vec_to_value e v with
      | none =>
        have hs : stripStep e file d pos
            { x := a, y := b, z := 0, img := img } = none := by
          simp only [stripStep, hv, hval]
        have ht : tileStep e file d N N 0 N pos
            { x := b, y := a, z := 0, img := img } = none := by
          have hcond : ¬ (b ≥ N ∨ a ≥ N) := by omega
          simp only [tileStep, hv, hcond, if_false, hval]
        rw [hs, ht]
        rfl
      | some val =>
        rw [stripStep_eq e file d pos a b N val v img row hv hval hrow hpix
          hrowlen]
        rw [tileStep_eq e file d pos a b N val v img row hv hval hrow hpix
          haN hb]
        have hlen' : (img.set a (row.set b [val])).length = N := by
          rw [List.length_set]; exact hlen
        have hrows' : ∀ r ∈ img.set a (row.set b [val]), r.length = N := by
          intro r hr
          rcases List.mem_or_eq_of_mem_set hr with h | h
          · exact hrows r h
          · subst h; rw [List.length_set]; exact hrowlen
        have hempty' : ∀ i j r p, j < N → N * a + b + 1 ≤ N * i + j →
            (img.set a (row.set b [val])).get? i = some r →
            r.get? j = some p → p = [] := by
          intro i j r p hj hge hri hpj
          by_cases hia : i = a
          · rw [hia] at hri hge
            rw [List.get?_set_eq_of_lt _ (by rw [hlen]; exact haN)] at hri
            have hr : row.set b [val] = r := Option.some.inj hri
            rw [← hr] at hpj
            have hjb : b ≠ j := by
              intro hcontra
              rw [← hcontra] at hge
              linarith
            rw [List.get?_set_ne _ _ hjb] at hpj
            exact hempty a j row p hj (by linarith) hrow hpj
          · rw [List.get?_set_ne _ _ (fun h => hia h.symm)] at hri
            have hcase : N * a + b ≤ N * i + j := by linarith
            exact hempty i j r p hj hcase hri hpj
        by_cases hbN : b + 1 ≥ N
        · rw [if_pos hbN, if_pos hbN]
          have hb1 : b + 1 = N := by omega
          have hmul : N * (a + 1) = N * a + N := by ring
          exact ih (a + 1) 0 (pos + d) (img.set a (row.set b [val]))
            hlen' hrows' hN (by linarith)
            (fun i j r p hj hge => hempty' i j r p hj (by linarith))
        · rw [if_neg hbN, if_neg hbN]
          exact ih a (b + 1) (pos + d) (img.set a (row.set b [val]))
            hlen' hrows' (by omega) (by linarith)
            (fun i j r p hj hge => hempty' i j r p hj (by linarith))

/-- Claim C8: for an image whose tile width, tile length, image width
and image length are all the same N (a single tile, no overhang), tiled
reconstruction equals strip reconstruction of the same pixel data (one
tile and one strip at the same offset with the same byte count, the
byte count covering at most the N-by-N pixels). -/
theorem c8_single_tile_eq_strip :
    ∀ (e : TIFFByteOrder) (file : List Nat) (ifd : IFD) (N d o c rps : Nat)
      (offE cntE : IFDEntry),
    ifd.get_image_length = some (.ok N) →
    ifd.get_image_width = some (.ok N) →
    ifd.get_bytes_per_sample = some (.ok d) →
    offE.value.as_unsigned_ints = some [o] →
    cntE.value.as_unsigned_ints = some [c] →
    0 < N → 0 < d → c / d ≤ N * N →
    read_tiled_image e file ifd
        { tile_width := N, tile_length := N,
          tile_bytes_counts := cntE, tile_bytes_offsets := offE } =
      read_strip_image e file ifd
        { strip_offsets := [o], strip_row_byte_countt := [c],
          rows_per_strip := rps } := by
  intro e file ifd N d o c rps offE cntE hL hW hD hoff hcnt hN hd hcd
  have hnz : ¬ (N = 0 ∨ N = 0) := by omega
  have hta : (N + N - 1) / N = 1 := Nat.div_eq_of_lt_le (by omega) (by omega)
  have hgeo : tileGeometry 0 1 1 N N = some (0, N, 0) := by
    norm_num [tileGeometry]
  have hlen0 : (emptyImage N N).length = N := by
    simp [emptyImage]
  have hrows0 : ∀ row ∈ emptyImage N N, row.length = N := by
    intro r hr
    rw [List.eq_of_mem_replicate hr]
    simp
  have hcount0 : N * 0 + 0 + c / d ≤ N * N := by simpa using hcd
  have hempty0 : ∀ i j r p, j < N → N * 0 + 0 ≤ N * i + j →
      (emptyImage N N).get? i = some r → r.get? j = some p → p = [] := by
    intro i j r p hj hge hri hpj
    have hr := List.eq_of_mem_replicate (List.get?_mem hri)
    rw [hr] at hpj
    exact List.eq_of_mem_replicate (List.get?_mem hpj)
  have hchunks := tile_strip_chunks_eq e file d N hN (c / d) 0 0 o
    (emptyImage N N) hlen0 hrows0 hN hcount0 hempty0
  simp only [read_tiled_image, read_strip_image, hL, hW, hD, hoff, hcnt,
    hnz, if_false, hta, stripStrips, tileTiles, hgeo, List.zip_cons_cons,
    List.zip_nil_right, if_neg (Nat.pos_iff_ne_zero.mp hd)]
  rw [hchunks]
  cases hsc : stripChunks e file d (c / d) o
      { x := 0, y := 0, z := 0, img := emptyImage N N } with
  | none => rfl
  | some st => rfl

/-- Witness for C8 at the concrete 2-by-2 fixture: the single 2-by-2
tile and the single 4-byte strip decode identically. -/
theorem c8_single_tile_eq_strip_witness :
    read_tiled_image .LittleEndian [10, 20, 30, 40] ifd2x2 tileSpec2x2 =
      read_strip_image .LittleEndian [10, 20, 30, 40] ifd2x2 stripSpec4 :=
  c8_single_tile_eq_strip .LittleEndian [10, 20, 30, 40] ifd2x2 2 1 0 4 0
    tileSpec2x2.tile_bytes_offsets tileSpec2x2.tile_bytes_counts
    rfl rfl rfl rfl rfl (by decide) (by decide) (by decide)

end Geotiff
